import Mathlib

/-!
Verification of the ragx-cli RAG pipeline core against its natural-language
specification. The Go sources are shallowly embedded: pure functions become
Lean functions over lists and strings (Go runes are Lean chars, Go ints are
Nat or Int as appropriate), stateful methods become explicit state-passing
functions whose external effects (the chat API, the SQLite engine, the Go
text/template engine) are modelled by explicit outcome parameters.
-/

namespace Ragx

/-! ## Chunker (cli/chunk.go) -/

/-- Error values of the chunker, mirroring ErrInvalidChunkSize and
ErrInvalidChunkOverlap in cli/chunk.go. -/
inductive ChunkErr where
  | invalidChunkSize
  | invalidChunkOverlap
deriving DecidableEq, Repr

/-- Core loop of ChunkText (cli/chunk.go lines 36-45): starting at rune
offset 0, each iteration appends r[i : min (i+size) n] and advances i by
step, stopping after the chunk that reaches the end of the text. The list
argument is the remaining runes r[i:]; the step is stepPred + 1 because the
validated step size - overlap is at least 1. -/
def chunkLoop (size stepPred : Nat) : List Char → List (List Char)
  | [] => []
  | c :: rest =>
    if (c :: rest).length ≤ size then [(c :: rest).take size]
    else (c :: rest).take size :: chunkLoop size stepPred (rest.drop stepPred)
termination_by l => l.length
decreasing_by
  simp [List.length_drop]
  omega

/-- ChunkText from cli/chunk.go, operating on runes (Unicode codepoints, so
a Go string is embedded as its rune slice): validates size and overlap as
the Go code does, then splits the rune sequence into chunks of length size
advancing by step = size - overlap. -/
def chunkText (text : List Char) (size overlap : Int) :
    Except ChunkErr (List (List Char)) :=
  if size ≤ 0 then .error .invalidChunkSize
  else if overlap < 0 ∨ overlap ≥ size then .error .invalidChunkOverlap
  else .ok (chunkLoop size.toNat ((size - overlap).toNat - 1) text)

/-- Ceiling division on naturals, written as in the spec formula
for the number of chunks. -/
def ceilDiv (a b : Nat) : Nat := (a + b - 1) / b

/-- Chunk count claimed by the spec: the ceiling of
max (0, codepoints - overlap) divided by (size - overlap); natural
subtraction realises the max with 0. This definition follows the words of
the specification, not the code, and is compared against the code. -/
def specChunkCount (codepoints size overlap : Nat) : Nat :=
  ceilDiv (codepoints - overlap) (size - overlap)

/-- Concatenation of the produced chunks with the overlap removed from every
chunk but the first, as in the reconstruction property of the spec. -/
def reconstruct (overlap : Nat) : List (List Char) → List Char
  | [] => []
  | c :: rest => c ++ (rest.map (List.drop overlap)).flatten

theorem chunkLoop_flatten_drop (size stepPred : Nat) (hs : stepPred + 1 ≤ size)
    (rem : List Char) :
    ((chunkLoop size stepPred rem).map (List.drop (size - (stepPred + 1)))).flatten
      = rem.drop (size - (stepPred + 1)) := by
  generalize hov : size - (stepPred + 1) = overlap
  induction rem using chunkLoop.induct size stepPred with
  | case1 => simp [chunkLoop]
  | case2 c rest hle =>
    rw [chunkLoop]
    simp only [if_pos hle, List.map_cons, List.map_nil, List.flatten_cons,
      List.flatten_nil, List.append_nil]
    rw [List.take_of_length_le hle]
  | case3 c rest hgt ih =>
    rw [chunkLoop]
    rw [if_neg hgt]
    simp only [List.map_cons, List.flatten_cons]
    rw [ih]
    have h1 : rest.drop stepPred = (c :: rest).drop (stepPred + 1) := by
      simp
    rw [h1, List.drop_take, List.drop_drop]
    have h2 : size - overlap = stepPred + 1 := by omega
    have h4 : List.drop (stepPred + 1 + overlap) (c :: rest)
        = List.drop (stepPred + 1) (List.drop overlap (c :: rest)) := by
      rw [List.drop_drop, Nat.add_comm]
    rw [h2, h4]
    rw [List.take_append_drop]

theorem chunkLoop_length (size stepPred : Nat) (hs : stepPred + 1 ≤ size)
    (rem : List Char) (hne : rem ≠ []) :
    (chunkLoop size stepPred rem).length
      = max 1 (ceilDiv (rem.length - (size - (stepPred + 1))) (stepPred + 1)) := by
  generalize hov : size - (stepPred + 1) = overlap
  induction rem using chunkLoop.induct size stepPred with
  | case1 => exact absurd rfl hne
  | case2 c rest hle =>
    rw [chunkLoop]
    simp only [if_pos hle, List.length_singleton]
    have hlt : ceilDiv ((c :: rest).length - overlap) (stepPred + 1) < 2 := by
      unfold ceilDiv
      rw [Nat.div_lt_iff_lt_mul (by omega)]
      have hle2 : (c :: rest).length ≤ size := hle
      omega
    omega
  | case3 c rest hgt ih =>
    rw [chunkLoop]
    rw [if_neg hgt]
    simp only [List.length_cons]
    have hcl : (c :: rest).length = rest.length + 1 := by simp
    have hdl : (rest.drop stepPred).length = rest.length - stepPred := by simp
    have hL : size < rest.length + 1 := by
      have := hgt
      omega
    have hne2 : rest.drop stepPred ≠ [] := by
      rw [← List.length_pos]
      omega
    rw [ih hne2, hdl]
    have hd1 : 1 ≤ ceilDiv (rest.length - stepPred - overlap) (stepPred + 1) := by
      unfold ceilDiv
      rw [Nat.le_div_iff_mul_le (by omega)]
      omega
    have hmain : ceilDiv (rest.length + 1 - overlap) (stepPred + 1)
        = ceilDiv (rest.length - stepPred - overlap) (stepPred + 1) + 1 := by
      unfold ceilDiv
      have he : rest.length + 1 - overlap + (stepPred + 1) - 1
          = (rest.length - stepPred - overlap + (stepPred + 1) - 1) + (stepPred + 1) := by
        omega
      rw [he]
      rw [Nat.add_div_right _ (by omega)]
    omega

theorem chunkLoop_reconstruct (size stepPred : Nat) (hs : stepPred + 1 ≤ size)
    (rem : List Char) :
    reconstruct (size - (stepPred + 1)) (chunkLoop size stepPred rem) = rem := by
  match rem with
  | [] => simp [chunkLoop, reconstruct]
  | c :: rest =>
    rw [chunkLoop]
    by_cases hle : (c :: rest).length ≤ size
    · rw [if_pos hle]
      simp only [reconstruct, List.map_nil, List.flatten_nil, List.append_nil]
      exact List.take_of_length_le hle
    · rw [if_neg hle]
      simp only [reconstruct]
      rw [chunkLoop_flatten_drop size stepPred hs]
      have h1 : rest.drop stepPred = (c :: rest).drop (stepPred + 1) := by
        simp
      rw [h1, List.drop_drop]
      have h2 : stepPred + 1 + (size - (stepPred + 1)) = size := by omega
      rw [h2]
      exact List.take_append_drop size (c :: rest)

/-- C6: corrected. For every rune sequence, size > 0 and 0 ≤ overlap < size,
chunkText succeeds; concatenating consecutive chunks with the overlap
removed reconstructs the text; empty input yields no chunks; and for
non-empty input the number of chunks is
max 1 (ceil (max 0 (codepoints - overlap) / (size - overlap))): the claimed
formula without the outer max 1, which fails when 0 < codepoints ≤ overlap
(the code still emits one chunk there). -/
theorem c6_chunk_reconstruct_and_count (text : List Char) (size overlap : Int)
    (hsz : 0 < size) (hov : 0 ≤ overlap) (hlt : overlap < size) :
    ∃ chunks, chunkText text size overlap = Except.ok chunks ∧
      reconstruct overlap.toNat chunks = text ∧
      (text = [] → chunks = []) ∧
      (text ≠ [] →
        chunks.length = max 1 (specChunkCount text.length size.toNat overlap.toNat)) := by
  have h1 : ¬ size ≤ 0 := by omega
  have h2 : ¬ (overlap < 0 ∨ overlap ≥ size) := by omega
  have hsp : (size - overlap).toNat - 1 + 1 = size.toNat - overlap.toNat := by omega
  have hle : (size - overlap).toNat - 1 + 1 ≤ size.toNat := by omega
  have hovn : size.toNat - ((size - overlap).toNat - 1 + 1) = overlap.toNat := by omega
  refine ⟨chunkLoop size.toNat ((size - overlap).toNat - 1) text, ?_, ?_, ?_, ?_⟩
  · simp [chunkText, h1, h2]
  · have hr := chunkLoop_reconstruct size.toNat ((size - overlap).toNat - 1) hle text
    rw [hovn] at hr
    exact hr
  · intro h
    subst h
    simp [chunkLoop]
  · intro hne
    have hl := chunkLoop_length size.toNat ((size - overlap).toNat - 1) hle text hne
    rw [hovn, hsp] at hl
    exact hl

/-- C6, witness: the spec scenario text abcdefghij with size 5, overlap 2
satisfies the corrected theorem; the chunk count there is 3. -/
theorem c6_chunk_reconstruct_and_count_witness :
    (0 : Int) < 5 ∧
    ∃ chunks,
      chunkText ['a'] 5 2 = Except.ok chunks ∧
      reconstruct (2 : Int).toNat chunks = ['a'] ∧
      (['a'] = ([] : List Char) → chunks = []) ∧
      (['a'] ≠ ([] : List Char) →
        chunks.length = max 1 (specChunkCount 1 (5 : Int).toNat (2 : Int).toNat)) :=
  ⟨by decide, c6_chunk_reconstruct_and_count ['a'] 5 2 (by decide) (by decide) (by decide)⟩

/-- C6, counterexample to the claimed chunk count: the one-rune text with
size 5 and overlap 2 is non-empty and yields one chunk, yet the claimed
formula ceil (max 0 (1 - 2) / (5 - 2)) evaluates to 0. -/
theorem c6_count_formula_counterexample :
    chunkText ['a'] 5 2 = Except.ok [['a']] ∧ specChunkCount 1 5 2 = 0 := by
  constructor
  · simp [chunkText, chunkLoop]
  · decide

/-! ## Chat messages and history truncation (llm/llm.go) -/

/-- Chat message union: the three roles used by the core, mirroring the
OfSystem / OfUser / OfAssistant variants of the openai message param union
that llm.go inspects. -/
inductive Msg where
  | system (text : String)
  | user (text : String)
  | assistant (text : String)
deriving DecidableEq, Repr

/-- True when the message is a system message (OfSystem pointer non-nil). -/
def Msg.isSystem : Msg → Bool
  | .system _ => true
  | _ => false

/-- True when the message is a user message (OfUser pointer non-nil). -/
def Msg.isUser : Msg → Bool
  | .user _ => true
  | _ => false

/-- True when the message is an assistant message. -/
def Msg.isAssistant : Msg → Bool
  | .assistant _ => true
  | _ => false

/-- Text content of a message. -/
def Msg.text : Msg → String
  | .system t => t
  | .user t => t
  | .assistant t => t

/-- A token counter, as the TokenCounter interface of llm.go: a pure
function of the message sequence. -/
abbrev TokenCounter := List Msg → Nat

/-- ApproxTokenCounter.Count from llm.go lines 257-277: the total rune count
of all message texts, divided by four rounding up via (n + 3) / 4. -/
def approxTokenCounter : TokenCounter :=
  fun msgs => ((msgs.map (fun m => m.text.length)).sum + 3) / 4

/-- Inner loop of TruncateHistory (llm.go lines 570-578): while the tail is
non-empty and head plus tail token counts exceed the limit, drop the leading
user-assistant pair if the first two tail messages form one, otherwise drop
the first tail message. The per-message counts recomputed here equal the
tailCounts array of the Go code. -/
def truncTail (tc : TokenCounter) (limit headTokens : Nat) : List Msg → List Msg
  | [] => []
  | m :: rest =>
    if headTokens + ((m :: rest).map (fun x => tc [x])).sum > limit then
      match rest with
      | r1 :: rest2 =>
        if m.isUser && r1.isAssistant then truncTail tc limit headTokens rest2
        else truncTail tc limit headTokens (r1 :: rest2)
      | [] => []
    else m :: rest

/-- TruncateHistory from llm.go lines 537-581: empty history returns empty;
limit 0 returns a copy; a history counting strictly below the limit returns
a copy; otherwise the leading run of system messages is kept in full and the
tail is trimmed by truncTail. -/
def truncateHistory (tc : TokenCounter) (msgs : List Msg) (limit : Nat) : List Msg :=
  if msgs = [] then []
  else if limit = 0 then msgs
  else if tc msgs < limit then msgs
  else
    let head := msgs.takeWhile Msg.isSystem
    let tail := msgs.dropWhile Msg.isSystem
    head ++ truncTail tc limit (tc head) tail

/-- C5: corrected. Truncation returns the history unchanged when the limit
is 0 and when the history counts strictly below the limit, and the leading
run of system messages is always preserved in full as a prefix of the
output. The claimed copy condition limit greater or equal to the count is
wrong at equality, where the trimming loop can drop messages. -/
theorem c5_truncate_copy_conditions (tc : TokenCounter) (msgs : List Msg) (limit : Nat) :
    (limit = 0 → truncateHistory tc msgs limit = msgs) ∧
    (tc msgs < limit → truncateHistory tc msgs limit = msgs) ∧
    ∃ rest, truncateHistory tc msgs limit = msgs.takeWhile Msg.isSystem ++ rest := by
  refine ⟨?_, ?_, ?_⟩
  · intro h
    subst h
    by_cases hm : msgs = []
    · subst hm
      simp [truncateHistory]
    · simp [truncateHistory, hm]
  · intro h
    by_cases hm : msgs = []
    · subst hm
      simp [truncateHistory]
    · by_cases hl : limit = 0
      · simp [truncateHistory, hm, hl]
      · simp [truncateHistory, hm, hl, h]
  · by_cases hm : msgs = []
    · subst hm
      exact ⟨[], by simp [truncateHistory]⟩
    · by_cases hl : limit = 0
      · refine ⟨msgs.dropWhile Msg.isSystem, ?_⟩
        simp [truncateHistory, hm, hl, List.takeWhile_append_dropWhile]
      · by_cases hcnt : tc msgs < limit
        · refine ⟨msgs.dropWhile Msg.isSystem, ?_⟩
          simp [truncateHistory, hm, hl, hcnt, List.takeWhile_append_dropWhile]
        · refine ⟨truncTail tc limit (tc (msgs.takeWhile Msg.isSystem))
            (msgs.dropWhile Msg.isSystem), ?_⟩
          simp [truncateHistory, hm, hl, hcnt]

/-- C5, witness: a concrete history of a system and a user message with the
default approximate counter and limit 0 is returned unchanged, the strict
under-limit case returns it unchanged, and the system prefix survives. -/
theorem c5_truncate_copy_conditions_witness :
    truncateHistory approxTokenCounter [Msg.system "s", Msg.user "hi"] 0
      = [Msg.system "s", Msg.user "hi"] :=
  (c5_truncate_copy_conditions approxTokenCounter
    [Msg.system "s", Msg.user "hi"] 0).1 rfl

/-- C5, counterexample to the claimed copy condition at equality: the
history of one user and one assistant message of one rune each counts to
exactly 1 under the default approximate counter, so a limit of 1 satisfies
limit greater or equal to the count, yet truncation drops the pair and
returns the empty history. -/
theorem c5_equal_limit_truncates :
    approxTokenCounter [Msg.user "a", Msg.assistant "b"] = 1 ∧
    truncateHistory approxTokenCounter [Msg.user "a", Msg.assistant "b"] 1 = [] := by
  constructor
  · rfl
  · decide

/-! ## Chat session send and streaming send (llm/llm.go lines 380-516) -/

/-- Mutable state of a ChatSession that the send paths read and write: the
message history, the session default context limit, the tokens-used counter
and the pluggable token counter. Logger, client handle and temperature only
feed the outbound request parameters and carry no claim-relevant state. -/
structure ChatSession where
  history : List Msg
  defaultContext : Nat
  contextUsed : Nat
  tokenCounter : TokenCounter

/-- ChatCompletionRequest from llm.go lines 371-376 (temperature omitted:
it only sets the outbound sampling field). -/
structure ChatCompletionRequest where
  model : String
  prompt : String
  contextLength : Nat
deriving DecidableEq, Repr

/-- Helper of removeLastUserMessage: scanning the history, returns the
prefix strictly before the last user message when one exists. -/
def dropFromLastUser : List Msg → Option (List Msg)
  | [] => none
  | m :: rest =>
    match dropFromLastUser rest with
    | some rest2 => some (m :: rest2)
    | none => if m.isUser then some [] else none

/-- removeLastUserMessage from llm.go lines 509-516: scan the history from
the tail and truncate it just before the first user message found; leave the
history unchanged when it holds no user message. -/
def removeLastUserMessage (h : List Msg) : List Msg :=
  (dropFromLastUser h).getD h

/-- Outcome of the one chat completions API call made by Send, supplied as
an explicit parameter of the embedding: the call either fails (cancelled
records whether the error wraps context.Canceled), returns no choices, or
returns an assistant reply. -/
inductive ApiOutcome where
  | failure (cancelled : Bool)
  | emptyChoices
  | success (reply : String)
deriving DecidableEq, Repr

/-- Errors of Send: ErrNoModelSelected, ErrEmptyCompletionResponse, or a
propagated transport error. -/
inductive SendErr where
  | noModelSelected
  | emptyCompletionResponse
  | apiFailure (cancelled : Bool)
deriving DecidableEq, Repr

/-- Result of a Send call: the post-call session, the outbound message list
given to the chat API (empty when validation failed before the call), and
the reply or error. -/
structure SendResult where
  session : ChatSession
  outbound : List Msg
  result : Except SendErr String

/-- ChatSession.Send from llm.go lines 380-428: reject an empty model;
append user(prompt) to history; build the outbound messages with
TruncateHistory over the session default context (the request context
length is not consulted); on transport failure roll the user message back
only when the error is context.Canceled; on an empty choice list fail with
ErrEmptyCompletionResponse; on success append the assistant reply and
recompute contextUsed over the new history. -/
def send (s : ChatSession) (req : ChatCompletionRequest) (outcome : ApiOutcome) :
    SendResult :=
  if req.model = "" then ⟨s, [], .error .noModelSelected⟩
  else
    let s1 : ChatSession := { s with history := s.history ++ [Msg.user req.prompt] }
    let outbound := truncateHistory s1.tokenCounter s1.history s1.defaultContext
    match outcome with
    | .failure cancelled =>
      if cancelled then
        ⟨{ s1 with history := removeLastUserMessage s1.history }, outbound,
          .error (.apiFailure true)⟩
      else ⟨s1, outbound, .error (.apiFailure false)⟩
    | .emptyChoices => ⟨s1, outbound, .error .emptyCompletionResponse⟩
    | .success reply =>
      let h2 := s1.history ++ [Msg.assistant reply]
      ⟨{ s1 with history := h2, contextUsed := s1.tokenCounter h2 }, outbound, .ok reply⟩

/-- Outcome of the streaming chat call consumed by the SendStreaming
iterator: a refusal after some deltas, a stream error after some deltas
(cancelled records context.Canceled), the consumer stopping the iteration,
or a clean end of stream. -/
inductive StreamOutcome where
  | refusal (deltas : List String) (msg : String)
  | failureAfter (deltas : List String) (cancelled : Bool)
  | stopped (deltas : List String)
  | clean (deltas : List String)
deriving DecidableEq, Repr

/-- Terminal error yielded by the SendStreaming iterator. -/
inductive StreamErr where
  | noModelSelected
  | refused (msg : String)
  | streamFailure (cancelled : Bool)
deriving DecidableEq, Repr

/-- Result of driving a SendStreaming iterator to its end: the post-call
session, the outbound message list, the non-empty content deltas yielded to
the consumer, and the terminal error if any. -/
structure StreamResult where
  session : ChatSession
  outbound : List Msg
  yielded : List String
  terminal : Option StreamErr

/-- ChatSession.SendStreaming from llm.go lines 432-501: reject an empty
model; append user(prompt); build the outbound messages with
TruncateHistory over the session default context; yield each non-empty
delta; a refusal terminates with an error and no history change; a stream
error rolls the user message back only when it is context.Canceled; when
the stream ends cleanly and the accumulated content is non-empty, append
the assistant message and recompute contextUsed. -/
def sendStreaming (s : ChatSession) (req : ChatCompletionRequest)
    (outcome : StreamOutcome) : StreamResult :=
  if req.model = "" then ⟨s, [], [], some .noModelSelected⟩
  else
    let s1 : ChatSession := { s with history := s.history ++ [Msg.user req.prompt] }
    let outbound := truncateHistory s1.tokenCounter s1.history s1.defaultContext
    match outcome with
    | .refusal deltas m =>
      ⟨s1, outbound, deltas.filter (fun d => d ≠ ""), some (.refused m)⟩
    | .failureAfter deltas cancelled =>
      let s2 := if cancelled then
          { s1 with history := removeLastUserMessage s1.history }
        else s1
      ⟨s2, outbound, deltas.filter (fun d => d ≠ ""), some (.streamFailure cancelled)⟩
    | .stopped deltas =>
      ⟨s1, outbound, deltas.filter (fun d => d ≠ ""), none⟩
    | .clean deltas =>
      let content := String.join (deltas.filter (fun d => d ≠ ""))
      if content = "" then ⟨s1, outbound, deltas.filter (fun d => d ≠ ""), none⟩
      else
        let h2 := s1.history ++ [Msg.assistant content]
        ⟨{ s1 with history := h2, contextUsed := s1.tokenCounter h2 }, outbound,
          deltas.filter (fun d => d ≠ ""), none⟩

theorem dropFromLastUser_append (h : List Msg) (p : String) :
    dropFromLastUser (h ++ [Msg.user p]) = some h := by
  induction h with
  | nil => simp [dropFromLastUser, Msg.isUser]
  | cons m rest ih =>
    simp only [List.cons_append, dropFromLastUser]
    rw [show List.append rest [Msg.user p] = rest ++ [Msg.user p] from rfl, ih]

theorem removeLastUserMessage_append (h : List Msg) (p : String) :
    removeLastUserMessage (h ++ [Msg.user p]) = h := by
  simp [removeLastUserMessage, dropFromLastUser_append]

theorem send_outbound_eq (s : ChatSession) (req : ChatCompletionRequest)
    (outcome : ApiOutcome) (hm : req.model ≠ "") :
    (send s req outcome).outbound
      = truncateHistory s.tokenCounter (s.history ++ [Msg.user req.prompt])
          s.defaultContext := by
  cases outcome with
  | failure c => cases c <;> simp [send, hm]
  | emptyChoices => simp [send, hm]
  | success r => simp [send, hm]

theorem sendStreaming_outbound_eq (s : ChatSession) (req : ChatCompletionRequest)
    (outcome : StreamOutcome) (hm : req.model ≠ "") :
    (sendStreaming s req outcome).outbound
      = truncateHistory s.tokenCounter (s.history ++ [Msg.user req.prompt])
          s.defaultContext := by
  cases outcome with
  | refusal d m => simp [sendStreaming, hm]
  | failureAfter d c => cases c <;> simp [sendStreaming, hm]
  | stopped d => simp [sendStreaming, hm]
  | clean d =>
    simp only [sendStreaming]
    rw [if_neg hm]
    split <;> rfl

/-- C2: corrected. For both send and streaming send the outbound message
list equals TruncateHistory over the session default context; the request
context length field is never consulted. On a successful send the assistant
reply is appended to the history and contextUsed is recomputed as the token
count of the new history. -/
theorem c2_outbound_uses_default_context (s : ChatSession)
    (req : ChatCompletionRequest) (outcome : ApiOutcome)
    (souts : StreamOutcome) (reply : String) (hm : req.model ≠ "") :
    (send s req outcome).outbound
      = truncateHistory s.tokenCounter (s.history ++ [Msg.user req.prompt])
          s.defaultContext ∧
    (sendStreaming s req souts).outbound
      = truncateHistory s.tokenCounter (s.history ++ [Msg.user req.prompt])
          s.defaultContext ∧
    (send s req (ApiOutcome.success reply)).session.history
      = s.history ++ [Msg.user req.prompt, Msg.assistant reply] ∧
    (send s req (ApiOutcome.success reply)).session.contextUsed
      = s.tokenCounter (s.history ++ [Msg.user req.prompt, Msg.assistant reply]) := by
  refine ⟨send_outbound_eq s req outcome hm,
    sendStreaming_outbound_eq s req souts hm, ?_, ?_⟩ <;> simp [send, hm]

/-- C2, witness: the corrected statement applied to a fresh session with
the default approximate counter, a request for model m with prompt p and a
request context length of 7, and a successful reply r. -/
theorem c2_outbound_uses_default_context_witness :
    (send ⟨[], 0, 0, approxTokenCounter⟩ ⟨"m", "p", 7⟩
        (ApiOutcome.success "r")).outbound
      = truncateHistory approxTokenCounter ([] ++ [Msg.user "p"]) 0 ∧
    (sendStreaming ⟨[], 0, 0, approxTokenCounter⟩ ⟨"m", "p", 7⟩
        (StreamOutcome.clean ["d"])).outbound
      = truncateHistory approxTokenCounter ([] ++ [Msg.user "p"]) 0 ∧
    (send ⟨[], 0, 0, approxTokenCounter⟩ ⟨"m", "p", 7⟩
        (ApiOutcome.success "r")).session.history
      = [] ++ [Msg.user "p", Msg.assistant "r"] ∧
    (send ⟨[], 0, 0, approxTokenCounter⟩ ⟨"m", "p", 7⟩
        (ApiOutcome.success "r")).session.contextUsed
      = approxTokenCounter ([] ++ [Msg.user "p", Msg.assistant "r"]) :=
  c2_outbound_uses_default_context ⟨[], 0, 0, approxTokenCounter⟩ ⟨"m", "p", 7⟩
    (ApiOutcome.success "r") (StreamOutcome.clean ["d"]) "r" (by decide)

/-- C2, counterexample to the claimed use of the request context length:
with a session default context of 0 (unlimited) and a request context
length of 1, the outbound list is the full history copy, while truncation
at the request context length would have emptied it. -/
theorem c2_request_context_length_ignored :
    (send ⟨[], 0, 0, approxTokenCounter⟩ ⟨"m", "aaaaaaaa", 1⟩
        (ApiOutcome.success "ok")).outbound = [Msg.user "aaaaaaaa"] ∧
    truncateHistory approxTokenCounter [Msg.user "aaaaaaaa"] 1 = [] ∧
    [Msg.user "aaaaaaaa"] ≠ ([] : List Msg) := by
  refine ⟨by decide, by decide, by decide⟩

/-- C3: corrected. A streaming send whose stream fails with
context.Canceled rolls back the trailing user prompt, leaving the history
exactly as before the call; a stream failure with any other error appends
no assistant message but keeps the trailing user prompt, so the post-call
history is the pre-call history plus user(prompt). contextUsed is untouched
in both cases. -/
theorem c3_rollback_only_on_cancellation (s : ChatSession)
    (req : ChatCompletionRequest) (deltas : List String) (hm : req.model ≠ "") :
    (sendStreaming s req (StreamOutcome.failureAfter deltas true)).session.history
      = s.history ∧
    (sendStreaming s req (StreamOutcome.failureAfter deltas false)).session.history
      = s.history ++ [Msg.user req.prompt] ∧
    (sendStreaming s req (StreamOutcome.failureAfter deltas true)).session.contextUsed
      = s.contextUsed ∧
    (sendStreaming s req (StreamOutcome.failureAfter deltas false)).session.contextUsed
      = s.contextUsed := by
  refine ⟨?_, ?_, ?_, ?_⟩ <;> simp [sendStreaming, hm, removeLastUserMessage_append]

/-- C3, witness: the corrected statement applied to a session holding one
system message, with a cancelled stream failure and a non-cancelled one. -/
theorem c3_rollback_only_on_cancellation_witness :
    (sendStreaming ⟨[Msg.system "s"], 0, 0, approxTokenCounter⟩ ⟨"m", "p", 0⟩
        (StreamOutcome.failureAfter ["d"] true)).session.history
      = [Msg.system "s"] ∧
    (sendStreaming ⟨[Msg.system "s"], 0, 0, approxTokenCounter⟩ ⟨"m", "p", 0⟩
        (StreamOutcome.failureAfter ["d"] false)).session.history
      = [Msg.system "s"] ++ [Msg.user "p"] ∧
    (sendStreaming ⟨[Msg.system "s"], 0, 0, approxTokenCounter⟩ ⟨"m", "p", 0⟩
        (StreamOutcome.failureAfter ["d"] true)).session.contextUsed = 0 ∧
    (sendStreaming ⟨[Msg.system "s"], 0, 0, approxTokenCounter⟩ ⟨"m", "p", 0⟩
        (StreamOutcome.failureAfter ["d"] false)).session.contextUsed = 0 :=
  c3_rollback_only_on_cancellation ⟨[Msg.system "s"], 0, 0, approxTokenCounter⟩
    ⟨"m", "p", 0⟩ ["d"] (by decide)

/-- C3, counterexample to the claimed rollback on every stream error: a
stream failure that is not a cancellation leaves the appended user prompt
in the history, so the post-call history differs from the pre-call one. -/
theorem c3_stream_error_keeps_user_prompt :
    (sendStreaming ⟨[], 0, 0, approxTokenCounter⟩ ⟨"m", "p", 0⟩
        (StreamOutcome.failureAfter [] false)).session.history = [Msg.user "p"] ∧
    [Msg.user "p"] ≠ ([] : List Msg) := by
  refine ⟨by decide, by decide⟩

/-- C9: confirmed. When a non-streaming send fails for a reason other than
context cancellation, that is with an empty choice list or a
non-cancellation transport error, the user message appended at the start of
the call stays in the history and contextUsed is not recomputed; only a
context-cancellation failure restores the pre-call history. -/
theorem c9_send_failure_keeps_user_message (s : ChatSession)
    (req : ChatCompletionRequest) (hm : req.model ≠ "") :
    ((send s req ApiOutcome.emptyChoices).session.history
        = s.history ++ [Msg.user req.prompt] ∧
      (send s req ApiOutcome.emptyChoices).session.contextUsed = s.contextUsed ∧
      (send s req ApiOutcome.emptyChoices).result
        = Except.error SendErr.emptyCompletionResponse) ∧
    ((send s req (ApiOutcome.failure false)).session.history
        = s.history ++ [Msg.user req.prompt] ∧
      (send s req (ApiOutcome.failure false)).session.contextUsed = s.contextUsed) ∧
    (send s req (ApiOutcome.failure true)).session.history = s.history := by
  refine ⟨⟨?_, ?_, ?_⟩, ⟨?_, ?_⟩, ?_⟩ <;>
    simp [send, hm, removeLastUserMessage_append]

/-- C9, witness: the statement applied to a session holding one assistant
message and a request for model m with prompt p. -/
theorem c9_send_failure_keeps_user_message_witness :
    ((send ⟨[Msg.assistant "a"], 0, 3, approxTokenCounter⟩ ⟨"m", "p", 0⟩
        ApiOutcome.emptyChoices).session.history
        = [Msg.assistant "a"] ++ [Msg.user "p"] ∧
      (send ⟨[Msg.assistant "a"], 0, 3, approxTokenCounter⟩ ⟨"m", "p", 0⟩
        ApiOutcome.emptyChoices).session.contextUsed = 3 ∧
      (send ⟨[Msg.assistant "a"], 0, 3, approxTokenCounter⟩ ⟨"m", "p", 0⟩
        ApiOutcome.emptyChoices).result
        = Except.error SendErr.emptyCompletionResponse) ∧
    ((send ⟨[Msg.assistant "a"], 0, 3, approxTokenCounter⟩ ⟨"m", "p", 0⟩
        (ApiOutcome.failure false)).session.history
        = [Msg.assistant "a"] ++ [Msg.user "p"] ∧
      (send ⟨[Msg.assistant "a"], 0, 3, approxTokenCounter⟩ ⟨"m", "p", 0⟩
        (ApiOutcome.failure false)).session.contextUsed = 3) ∧
    (send ⟨[Msg.assistant "a"], 0, 3, approxTokenCounter⟩ ⟨"m", "p", 0⟩
      (ApiOutcome.failure true)).session.history = [Msg.assistant "a"] :=
  c9_send_failure_keeps_user_message ⟨[Msg.assistant "a"], 0, 3, approxTokenCounter⟩
    ⟨"m", "p", 0⟩ (by decide)

/-! ## Streaming answer path and reasoning filter
(cli/query.go drainStream, chatui/stream.go model.Update) -/

/-- Whitespace predicate of Go unicode.IsSpace: the ASCII space characters
plus the Unicode White_Space code points. -/
def isGoSpace (c : Char) : Bool :=
  c.toNat = 9 || c.toNat = 10 || c.toNat = 11 || c.toNat = 12 || c.toNat = 13 ||
  c.toNat = 32 || c.toNat = 0x85 || c.toNat = 0xA0 || c.toNat = 0x1680 ||
  (0x2000 ≤ c.toNat && c.toNat ≤ 0x200A) ||
  c.toNat = 0x2028 || c.toNat = 0x2029 || c.toNat = 0x202F ||
  c.toNat = 0x205F || c.toNat = 0x3000

/-- Go strings.TrimSpace: remove leading and trailing whitespace runes. -/
def goTrimSpace (s : String) : String :=
  ⟨((s.toList.dropWhile isGoSpace).reverse.dropWhile isGoSpace).reverse⟩

/-- The reasoningStartTag constant shared by cli and chatui. -/
def reasoningStartTag : String := "<think>"

/-- The reasoningEndTag constant shared by cli and chatui. -/
def reasoningEndTag : String := "</think>"

/-- Content filter of drainStream (cli/query.go lines 141-189) restricted to
content chunks: a delta trimming to the start tag turns reasoning on and is
not printed; one trimming to the end tag turns reasoning off, marks it done
and is not printed; deltas during reasoning are not printed; the first delta
after reasoning is done clears the flag and is dropped when all-whitespace;
every other delta is printed verbatim. The two Bool arguments are the
reasoning and reasoningDone flags. -/
def drainFilter : Bool → Bool → List String → List String
  | _, _, [] => []
  | reasoning, done, c :: rest =>
    let t := goTrimSpace c
    if t = reasoningStartTag then drainFilter true done rest
    else if t = reasoningEndTag then drainFilter false true rest
    else if reasoning then drainFilter reasoning done rest
    else if done then
      if t = "" then drainFilter reasoning false rest
      else c :: drainFilter reasoning false rest
    else c :: drainFilter reasoning done rest

/-- Stream-relevant state of the chatui model (chatui/stream.go): the
reasoning and reasoningDone flags, the user-facing response builder and the
reasoning builder. -/
structure TuiState where
  reasoning : Bool
  reasoningDone : Bool
  response : String
  reasoningBuf : String
deriving DecidableEq, Repr

/-- One streamChunk content step of model.Update (chatui/stream.go lines
408-425): the start tag turns reasoning on; the end tag turns reasoning
off, marks it done and resets the reasoning builder; when reasoning is done
an all-whitespace delta is discarded and clears the flag; otherwise
writeResponseChunk appends the delta to the reasoning builder while
reasoning and to the response builder otherwise. -/
def tuiStep (st : TuiState) (content : String) : TuiState :=
  let t := goTrimSpace content
  if t = reasoningStartTag then { st with reasoning := true }
  else if t = reasoningEndTag then
    { st with reasoning := false, reasoningDone := true, reasoningBuf := "" }
  else if st.reasoningDone && t = "" then { st with reasoningDone := false }
  else if st.reasoning then { st with reasoningBuf := st.reasoningBuf ++ content }
  else { st with response := st.response ++ content }

/-- Folding a whole delta sequence through the chatui stream handler. -/
def tuiRun (st : TuiState) (deltas : List String) : TuiState :=
  deltas.foldl tuiStep st

/-- Initial stream state of a fresh chatui model. -/
def tuiInit : TuiState := ⟨false, false, "", ""⟩

/-- C7: corrected. Deltas arriving while reasoning is active are appended
to the reasoning buffer, never to the user-facing response; on the spec
delta sequence the CLI drain filter prints exactly final answer, and the
chatui handler ends with response final answer — but its reasoning buffer
is empty, because the end-tag step resets it, having held plan until that
step. -/
theorem c7_reasoning_filter (st : TuiState) (c : String)
    (hr : st.reasoning = true) :
    (tuiStep st c).response = st.response ∧
    drainFilter false false ["<think>", "plan", "</think>", "", "final answer"]
      = ["final answer"] ∧
    (tuiRun tuiInit ["<think>", "plan"]).reasoningBuf = "plan" ∧
    tuiRun tuiInit ["<think>", "plan", "</think>", "", "final answer"]
      = ⟨false, false, "final answer", ""⟩ := by
  refine ⟨?_, by decide, by decide, by decide⟩
  simp only [tuiStep, hr]
  split_ifs <;> rfl

/-- C7, witness: the per-step statement applied at a concrete reasoning
state and delta. -/
theorem c7_reasoning_filter_witness :
    (tuiStep ⟨true, false, "r", "b"⟩ "x").response = "r" ∧
    drainFilter false false ["<think>", "plan", "</think>", "", "final answer"]
      = ["final answer"] ∧
    (tuiRun tuiInit ["<think>", "plan"]).reasoningBuf = "plan" ∧
    tuiRun tuiInit ["<think>", "plan", "</think>", "", "final answer"]
      = ⟨false, false, "final answer", ""⟩ :=
  c7_reasoning_filter ⟨true, false, "r", "b"⟩ "x" rfl

/-- C7, counterexample to the claimed final reasoning buffer: after the
spec delta sequence the chatui reasoning buffer is empty, not plan, because
processing the end tag resets it. -/
theorem c7_reasoning_buffer_reset :
    (tuiRun tuiInit ["<think>", "plan", "</think>", "", "final answer"]).reasoningBuf
      = "" ∧
    (tuiRun tuiInit ["<think>", "plan", "</think>", "", "final answer"]).reasoningBuf
      ≠ "plan" := by
  refine ⟨by decide, by decide⟩

/-! ## Vector index (vecdb/vecdb.go) -/

/-- A stored row of the index: the sqlite rowid, the chunk content, the
opaque JSON meta blob, and the embedding vector. Vector components are
rationals standing for the exact float values of the claims, and distances
are compared by squared euclidean distance, which orders rows exactly as
the euclidean distance computed by sqlite-vec does. -/
structure VRow where
  rowid : Int
  content : String
  meta : String
  vec : List ℚ
deriving DecidableEq, Repr

/-- An insert request row, as the Chunk struct of vecdb.go. -/
structure VChunk where
  content : String
  meta : String
  vec : List ℚ
deriving DecidableEq, Repr

/-- State of a VectorDB: the fixed dimension, the next rowid sqlite will
allocate, and the committed rows. -/
structure VecDB where
  dim : Nat
  nextRowid : Int
  rows : List VRow
deriving DecidableEq, Repr

/-- Index errors wrapping ErrDimMismatch: the expected dimension, the
offending length, and the offending rowid when raised inside insertItems. -/
inductive DbErr where
  | dimMismatch (want got : Nat) (rowid : Option Int)
deriving DecidableEq, Repr

/-- Row allocation inside the insert transaction: each chunk receives the
next consecutive rowid together with its content, meta and vector. -/
def allocRows (next : Int) : List VChunk → List VRow
  | [] => []
  | c :: rest => ⟨next, c.content, c.meta, c.vec⟩ :: allocRows (next + 1) rest

/-- VectorDB.Insert from vecdb.go lines 101-152 with insertItems lines
154-187: inside one transaction the content rows are written and rowids
allocated, then every vector is length-checked against the index dimension;
any mismatch raises ErrDimMismatch and rolls the whole transaction back, so
the returned state is the pre-call state; otherwise the commit publishes
every row. Go iterates the items map in unspecified order, so which of
several offending rows is named in the error is unspecified; the model
reports the first in insertion order. -/
def dbInsert (db : VecDB) (chunks : List VChunk) : VecDB × Option DbErr :=
  let newRows := allocRows db.nextRowid chunks
  match newRows.find? (fun r => r.vec.length != db.dim) with
  | some r => (db, some (.dimMismatch db.dim r.vec.length (some r.rowid)))
  | none =>
    ({ db with
        rows := db.rows ++ newRows
        nextRowid := db.nextRowid + chunks.length }, none)

/-- Squared euclidean distance between two vectors. -/
def distSq (a b : List ℚ) : ℚ :=
  ((a.zip b).map (fun p => (p.1 - p.2) * (p.1 - p.2))).sum

/-- Result ordering of the KNN query: ascending distance, ties broken by
ascending rowid. -/
def hitLe (q : List ℚ) (a b : VRow) : Prop :=
  distSq q a.vec < distSq q b.vec ∨
    (distSq q a.vec = distSq q b.vec ∧ a.rowid ≤ b.rowid)

instance (q : List ℚ) : DecidableRel (hitLe q) := fun x y =>
  inferInstanceAs (Decidable (_ ∨ _ ∧ x.rowid ≤ y.rowid))

/-- VectorDB.SearchKNN from vecdb.go lines 204-243: reject a query vector
whose length differs from the index dimension; a non-positive k defaults to
5; return up to k rows ordered by ascending distance. -/
def searchKNN (db : VecDB) (q : List ℚ) (k : Int) : Except DbErr (List VRow) :=
  if q.length ≠ db.dim then .error (.dimMismatch db.dim q.length none)
  else
    .ok ((db.rows.insertionSort (hitLe q)).take (if k ≤ 0 then (5 : Int) else k).toNat)

theorem searchKNN_full_take (db : VecDB) (q : List ℚ) (hq : q.length = db.dim)
    (hpos : 0 < db.rows.length) (res : List VRow)
    (hres : searchKNN db q ((db.rows.length : Int)) = Except.ok res) :
    ∀ r ∈ db.rows, r ∈ res := by
  intro r hr
  rw [searchKNN, if_neg (by simp [hq])] at hres
  rw [if_neg (by omega : ¬ ((db.rows.length : Int) ≤ 0))] at hres
  have hperm : List.Perm (db.rows.insertionSort (hitLe q)) db.rows :=
    List.perm_insertionSort (hitLe q) db.rows
  have htake : (db.rows.insertionSort (hitLe q)).take
        ((db.rows.length : Int)).toNat
      = db.rows.insertionSort (hitLe q) := by
    apply List.take_of_length_le
    rw [hperm.length_eq]
    simp
  rw [htake] at hres
  have hr2 : res = db.rows.insertionSort (hitLe q) := by
    injection hres with h
    exact h.symm
  rw [hr2]
  exact hperm.mem_iff.mpr hr

theorem allocRows_vec_mem (next : Int) (chunks : List VChunk) (r : VRow)
    (hr : r ∈ allocRows next chunks) : ∃ c ∈ chunks, r.vec = c.vec := by
  induction chunks generalizing next with
  | nil => simp [allocRows] at hr
  | cons c rest ih =>
    simp only [allocRows, List.mem_cons] at hr
    cases hr with
    | inl h => exact ⟨c, by simp, by simp [h]⟩
    | inr h =>
      obtain ⟨c2, hc2, hv⟩ := ih (next + 1) h
      exact ⟨c2, by simp [hc2], hv⟩

theorem allocRows_mem_of_chunk (next : Int) (chunks : List VChunk) (c : VChunk)
    (hc : c ∈ chunks) : ∃ r ∈ allocRows next chunks, r.vec = c.vec := by
  induction chunks generalizing next with
  | nil => simp at hc
  | cons c0 rest ih =>
    simp only [List.mem_cons] at hc
    cases hc with
    | inl h => exact ⟨⟨next, c0.content, c0.meta, c0.vec⟩, by simp [allocRows], by simp [h]⟩
    | inr h =>
      obtain ⟨r, hr, hv⟩ := ih (next + 1) h
      exact ⟨r, by simp [allocRows, hr], hv⟩

/-- C4: confirmed. The insert batch is atomic: when every vector matches
the index dimension the batch commits, appending every allocated row, and
each of those rows is visible to a subsequent SearchKNN call; when any
vector mismatches, the call fails with a dimension-mismatch error carrying
the expected dimension and the offending length, and the state is exactly
the pre-call state. -/
theorem c4_insert_batch_atomic (db : VecDB) (chunks : List VChunk) :
    ((∀ c ∈ chunks, c.vec.length = db.dim) →
      (dbInsert db chunks).2 = none ∧
      (dbInsert db chunks).1.rows = db.rows ++ allocRows db.nextRowid chunks ∧
      (∀ r ∈ allocRows db.nextRowid chunks, ∀ q : List ℚ, q.length = db.dim →
        ∀ res, searchKNN (dbInsert db chunks).1 q
            (((dbInsert db chunks).1.rows.length : Int)) = Except.ok res →
          r ∈ res)) ∧
    ((∃ c ∈ chunks, c.vec.length ≠ db.dim) →
      (dbInsert db chunks).1 = db ∧
      ∃ c ∈ chunks, ∃ rid,
        (dbInsert db chunks).2
          = some (DbErr.dimMismatch db.dim c.vec.length (some rid))) := by
  constructor
  · intro hall
    have hfind : (allocRows db.nextRowid chunks).find?
        (fun r => r.vec.length != db.dim) = none := by
      rw [List.find?_eq_none]
      intro r hr
      obtain ⟨c, hc, hv⟩ := allocRows_vec_mem db.nextRowid chunks r hr
      simp [hv, hall c hc]
    refine ⟨by simp [dbInsert, hfind], by simp [dbInsert, hfind], ?_⟩
    intro r hr q hq res hres
    have hdim : (dbInsert db chunks).1.dim = db.dim := by
      simp [dbInsert, hfind]
    have hrows : (dbInsert db chunks).1.rows
        = db.rows ++ allocRows db.nextRowid chunks := by
      simp [dbInsert, hfind]
    have hmemr : r ∈ (dbInsert db chunks).1.rows := by
      rw [hrows]
      exact List.mem_append_right _ hr
    have hlenpos : 0 < (dbInsert db chunks).1.rows.length :=
      List.length_pos.mpr (by intro h; rw [h] at hmemr; simp at hmemr)
    exact searchKNN_full_take (dbInsert db chunks).1 q (by rw [hq, hdim])
      hlenpos res hres r hmemr
  · rintro ⟨c, hc, hne⟩
    cases hfind : (allocRows db.nextRowid chunks).find?
        (fun r => r.vec.length != db.dim) with
    | none =>
      exfalso
      rw [List.find?_eq_none] at hfind
      obtain ⟨r, hr, hv⟩ := allocRows_mem_of_chunk db.nextRowid chunks c hc
      have h2 := hfind r hr
      simp [hv] at h2
      exact hne h2
    | some r =>
      obtain ⟨c2, hc2, hv⟩ :=
        allocRows_vec_mem db.nextRowid chunks r (List.mem_of_find?_eq_some hfind)
      refine ⟨by simp [dbInsert, hfind], c2, hc2, r.rowid, ?_⟩
      simp [dbInsert, hfind, hv]

/-- C4, witness: on a fresh two-dimensional index, inserting one well-sized
chunk commits with no error, and inserting one short chunk leaves the state
untouched. -/
theorem c4_insert_batch_atomic_witness :
    (dbInsert ⟨2, 1, []⟩ [⟨"x", "m", [(1 : ℚ), 0]⟩]).2 = none ∧
    (dbInsert ⟨2, 1, []⟩ [⟨"y", "m", [(1 : ℚ)]⟩]).1 = ⟨2, 1, []⟩ :=
  ⟨((c4_insert_batch_atomic ⟨2, 1, []⟩ [⟨"x", "m", [(1 : ℚ), 0]⟩]).1
      (by decide)).1,
    ((c4_insert_batch_atomic ⟨2, 1, []⟩ [⟨"y", "m", [(1 : ℚ)]⟩]).2
      (by decide)).1⟩

/-! ## Prompt assembly (cli/prompt/prompt.go) -/

/-- Chunk view handed to the user prompt template: ID, Source, Content. -/
structure ChunkView where
  id : Int
  source : String
  content : String
deriving DecidableEq, Repr

/-- Template data handed to the user prompt template: Query and Chunks. -/
structure TmplData where
  query : String
  chunks : List ChunkView
deriving DecidableEq, Repr

/-- Per-hit view construction from BuildUserPrompt (prompt.go lines
151-165): decode the meta blob through the meta function when one is given,
fall back to unknown for an empty source and to the positional index for a
zero id (the cmp.Or fallbacks), and trim the content. -/
def mkChunkView (metaFn : Option (String → String × Int)) (i : Nat) (r : VRow) :
    ChunkView :=
  let p := match metaFn with
    | some f => f r.meta
    | none => ("", 0)
  ⟨if p.2 = 0 then (i : Int) else p.2,
    if p.1 = "" then "unknown" else p.1,
    goTrimSpace r.content⟩

/-- The view list built by the range loop of BuildUserPrompt, carrying the
running positional index. -/
def buildChunkViews (metaFn : Option (String → String × Int)) (i : Nat) :
    List VRow → List ChunkView
  | [] => []
  | r :: rest => mkChunkView metaFn i r :: buildChunkViews metaFn (i + 1) rest

/-- One chunk block of the rendered default user prompt template
(DefaultUserPromptTmpl of prompt.go): separator line, CHUNK header with id
and source, and the TEXT line. -/
def chunkBlock (v : ChunkView) : String :=
  "\n----\nCHUNK id=" ++ toString v.id ++ " source=" ++ v.source
    ++ "\nTEXT: " ++ v.content

/-- Rendering of DefaultUserPromptTmpl over the template data: the USER
QUERY header, then the CONTEXT section, which reads (no relevant chunks)
when the chunk list is empty and one block per chunk followed by a closing
separator otherwise. -/
def renderUserPrompt (td : TmplData) : String :=
  let header := "USER QUERY:\n" ++ td.query ++ "\n\nCONTEXT:"
  if td.chunks = [] then header ++ "\n(no relevant chunks)"
  else header ++ String.join (td.chunks.map chunkBlock) ++ "\n----"

/-- Template errors of BuildUserPrompt: parse failure and execute
failure. -/
inductive PromptErr where
  | templateParse (msg : String)
  | templateExecute (msg : String)
deriving DecidableEq, Repr

/-- BuildUserPrompt from prompt.go lines 137-178: trim the query, build the
chunk views with the fallbacks, then parse the template and execute it over
the data; a parse failure returns a TemplateParse error and an execute
failure a TemplateExecute error, never error text as the prompt. The Go
text/template engine is external to the core and is supplied as the pair of
functions parseTmpl and execTmpl. -/
def buildUserPrompt {α : Type} (parseTmpl : String → Except String α)
    (execTmpl : α → TmplData → Except String String)
    (query : String) (chunks : List VRow)
    (metaFn : Option (String → String × Int)) (userTmpl : String) :
    Except PromptErr String :=
  let td : TmplData := ⟨goTrimSpace query, buildChunkViews metaFn 0 chunks⟩
  match parseTmpl userTmpl with
  | .error e => .error (.templateParse e)
  | .ok t =>
    match execTmpl t td with
    | .error e => .error (.templateExecute e)
    | .ok out => .ok out

/-- C8: confirmed. BuildUserPrompt hands the template engine exactly the
trimmed query and the fallback-decoded chunk views; a template parse
failure yields a TemplateParse error, an execute failure a TemplateExecute
error, a successful render the rendered prompt; and after a parse failure
no string at all is returned as the prompt. -/
theorem c8_build_user_prompt_errors {α : Type} (parseTmpl : String → Except String α)
    (execTmpl : α → TmplData → Except String String) (query : String)
    (chunks : List VRow) (metaFn : Option (String → String × Int))
    (userTmpl : String) :
    (∀ e, parseTmpl userTmpl = Except.error e →
      buildUserPrompt parseTmpl execTmpl query chunks metaFn userTmpl
        = Except.error (PromptErr.templateParse e)) ∧
    (∀ t e, parseTmpl userTmpl = Except.ok t →
      execTmpl t ⟨goTrimSpace query, buildChunkViews metaFn 0 chunks⟩
          = Except.error e →
      buildUserPrompt parseTmpl execTmpl query chunks metaFn userTmpl
        = Except.error (PromptErr.templateExecute e)) ∧
    (∀ t out, parseTmpl userTmpl = Except.ok t →
      execTmpl t ⟨goTrimSpace query, buildChunkViews metaFn 0 chunks⟩
          = Except.ok out →
      buildUserPrompt parseTmpl execTmpl query chunks metaFn userTmpl
        = Except.ok out) ∧
    (∀ e out, parseTmpl userTmpl = Except.error e →
      buildUserPrompt parseTmpl execTmpl query chunks metaFn userTmpl
        ≠ Except.ok out) := by
  refine ⟨?_, ?_, ?_, ?_⟩
  · intro e hp
    simp [buildUserPrompt, hp]
  · intro t e hp he
    simp [buildUserPrompt, hp, he]
  · intro t out hp ho
    simp [buildUserPrompt, hp, ho]
  · intro e out hp
    simp [buildUserPrompt, hp]

/-- C8, witness: a template engine failing on the template string bad and
rendering the default template otherwise, applied to an untrimmed query and
no chunks. -/
theorem c8_build_user_prompt_errors_witness :
    buildUserPrompt
        (fun s => if s = "bad" then Except.error "parse failed" else Except.ok s)
        (fun _ td => Except.ok (renderUserPrompt td)) " q " [] none "bad"
      = Except.error (PromptErr.templateParse "parse failed") ∧
    buildUserPrompt
        (fun s => if s = "bad" then Except.error "parse failed" else Except.ok s)
        (fun _ td => Except.ok (renderUserPrompt td)) " q " [] none "tmpl"
      = Except.ok (renderUserPrompt ⟨goTrimSpace " q ", buildChunkViews none 0 []⟩) :=
  ⟨(c8_build_user_prompt_errors
      (fun s => if s = "bad" then Except.error "parse failed" else Except.ok s)
      (fun _ td => Except.ok (renderUserPrompt td)) " q " [] none "bad").1
      "parse failed" rfl,
    ((c8_build_user_prompt_errors
      (fun s => if s = "bad" then Except.error "parse failed" else Except.ok s)
      (fun _ td => Except.ok (renderUserPrompt td)) " q " [] none "tmpl").2.2.1
      "tmpl" (renderUserPrompt ⟨goTrimSpace " q ", buildChunkViews none 0 []⟩)
      rfl rfl)⟩

theorem buildChunkViews_length (metaFn : Option (String → String × Int))
    (start : Nat) (chunks : List VRow) :
    (buildChunkViews metaFn start chunks).length = chunks.length := by
  induction chunks generalizing start with
  | nil => rfl
  | cons r rest ih => simp [buildChunkViews, ih]

theorem buildChunkViews_get (metaFn : Option (String → String × Int))
    (start : Nat) (chunks : List VRow) (i : Nat) (h : i < chunks.length)
    (h2 : i < (buildChunkViews metaFn start chunks).length) :
    (buildChunkViews metaFn start chunks).get ⟨i, h2⟩
      = mkChunkView metaFn (start + i) (chunks.get ⟨i, h⟩) := by
  induction chunks generalizing start i with
  | nil => simp at h
  | cons r rest ih =>
    cases i with
    | zero => simp [buildChunkViews]
    | succ n =>
      have hn : n < rest.length := by simpa using h
      have hn2 : n < (buildChunkViews metaFn (start + 1) rest).length := by
        rw [buildChunkViews_length]
        exact hn
      have := ih (start + 1) n hn hn2
      simp only [buildChunkViews, List.get_cons_succ]
      rw [this]
      have harith : start + 1 + n = start + (n + 1) := by omega
      rw [harith]

/-- C10: confirmed. A hit whose meta decodes to ordinal 0 renders with the
hit position as its CHUNK id, for every hit list and every position: the
cmp.Or fallback replaces the zero ordinal by the positional index, exactly
as it does for missing metadata. -/
theorem c10_zero_ordinal_renders_position (f : String → String × Int)
    (chunks : List VRow) (i : Nat) (h : i < chunks.length)
    (hz : (f (chunks.get ⟨i, h⟩).meta).2 = 0) :
    ∃ hlen : i < (buildChunkViews (some f) 0 chunks).length,
      ((buildChunkViews (some f) 0 chunks).get ⟨i, hlen⟩).id = (i : Int) := by
  have hlen : i < (buildChunkViews (some f) 0 chunks).length := by
    rw [buildChunkViews_length]
    exact h
  refine ⟨hlen, ?_⟩
  rw [buildChunkViews_get (some f) 0 chunks i h hlen]
  have hz2 : (f chunks[i].meta).2 = 0 := by simpa using hz
  simp [mkChunkView, hz2]

/-- C10, witness: a decoder returning ordinal 0 on a single-row hit list
renders CHUNK id 0, the position of the hit. -/
theorem c10_zero_ordinal_renders_position_witness :
    ∃ hlen : 0 < (buildChunkViews (some (fun _ => ("src", 0))) 0
        [⟨1, "c", "m", ([] : List ℚ)⟩]).length,
      ((buildChunkViews (some (fun _ => ("src", 0))) 0
        [⟨1, "c", "m", ([] : List ℚ)⟩]).get ⟨0, hlen⟩).id = ((0 : Nat) : Int) :=
  c10_zero_ordinal_renders_position (fun _ => ("src", 0))
    [⟨1, "c", "m", ([] : List ℚ)⟩] 0 (by decide) rfl

/-! ## RAG query orchestrator retrieval step (cli/query.go, chatui/stream.go) -/

deriving instance DecidableEq for Except

/-- Retrieval step of the query orchestrator (cli/query.go line 98 and
chatui/stream.go line 53): the configured top_k is passed to SearchKNN
unchanged. -/
def orchestratorHits (db : VecDB) (queryVec : List ℚ) (topK : Int) :
    Except DbErr (List VRow) :=
  searchKNN db queryVec topK

/-- C1: the code violates the claim. With top_k = 0 on a one-row index the
orchestrator retrieval step returns the stored row, because SearchKNN
defaults any k at most 0 to 5; the chunk list handed to prompt assembly is
therefore non-empty and the rendered CONTEXT section shows the chunk rather
than (no relevant chunks). The LLMConfig comment in chatui/stream.go
documents 0 as disabling retrieval, so the claim is right about the intent
and the code contradicts it. -/
theorem c1_topk_zero_still_retrieves :
    orchestratorHits ⟨1, 2, [⟨1, "hello", "meta", [(0 : ℚ)]⟩]⟩ [(0 : ℚ)] 0
      = Except.ok [⟨1, "hello", "meta", [(0 : ℚ)]⟩] ∧
    renderUserPrompt ⟨"q", buildChunkViews none 0 [⟨1, "hello", "meta", [(0 : ℚ)]⟩]⟩
      = "USER QUERY:\nq\n\nCONTEXT:\n----\nCHUNK id=0 source=unknown\nTEXT: hello\n----" ∧
    renderUserPrompt ⟨"q", buildChunkViews none 0 [⟨1, "hello", "meta", [(0 : ℚ)]⟩]⟩
      ≠ renderUserPrompt ⟨"q", []⟩ := by
  refine ⟨by decide, ?_, ?_⟩ <;> decide

end Ragx
